import Mathlib

/-!
Shallow embedding of the "GAP Audit & Token Manager" Figma plugin
(`src/code.js`).  The plugin audits the `itemSpacing` (GAP) property of
Frame/AutoLayout nodes and can bind it to a design-token variable.

Host-API behaviour (the `figma` global) is modelled by an oracle record
`Host`; the mutable document (nodes, local variables, the module-level
`variableCollectionsCache`) is the state record `Doc`.  JavaScript values
that may be "a number or something else" are modelled by `JSVal`;
possibly-`null`/`undefined` strings by `Option String` together with the
JS truthiness helpers below.  Machine numbers are modelled as `Int`
(no claim depends on fractional or overflow behaviour).
-/

namespace GapPlugin

/-- A JavaScript value as far as the plugin inspects it: the code only ever
distinguishes `typeof v === 'number'` from everything else. -/
inductive JSVal where
  | num (n : Int)
  | str (s : String)
deriving DecidableEq, Repr

/-- One mode of a variable collection / variable (`{ modeId }`). -/
structure Mode where
  modeId : String
deriving DecidableEq, Repr

/-- A local variable of the document (a design token).  `gvfm` is the host
behaviour of `variable.getValueForMode(modeId)`: `.error` models a throw. -/
structure Variable where
  id : String
  name : String
  resolvedType : String
  variableCollectionId : Option String
  modes : List Mode
  defaultModeId : Option String
  valuesByMode : List (String × JSVal)
  gvfm : String → Except String JSVal

/-- A variable collection (`{ id, name, defaultModeId }`); `name` is
`Option` because the code guards it with `collection.name || …`. -/
structure VarCollection where
  id : String
  name : Option String
  defaultModeId : Option String
deriving DecidableEq, Repr

/-- A bound-variable reference object (`{ type, id }`). -/
structure BoundRef where
  typeTag : String
  refId : String
deriving DecidableEq, Repr

/-- `node.boundVariables.itemSpacing` can be a single alias object or an
array of them; the code (code.js lines 275-284) handles both. -/
inductive BoundGap where
  | single (r : BoundRef)
  | arr (rs : List BoundRef)
deriving DecidableEq, Repr

/-- A document node, restricted to the properties the plugin reads. -/
structure Node where
  id : String
  name : String
  nodeType : String
  layoutMode : String
  itemSpacing : Int
  boundItemSpacing : Option BoundGap
deriving DecidableEq, Repr

/-- A fresh-variable template: what the host hands back from
`figma.variables.createVariable` (id, modes, …) apart from the name and
resolved type requested by the caller. -/
structure FreshVar where
  id : String
  modes : List Mode
  defaultModeId : Option String
  gvfm : String → Except String JSVal

/-- Oracle for the host (`figma`) API behaviour.  Each `Option String`
"…Throws" field models whether the corresponding call throws (with the
given message); `getCollections` models
`figma.variables.getLocalVariableCollectionsAsync()` (`.ok none` models a
`null` return, handled by `collections || []`). -/
structure Host where
  variablesApi : Bool
  getCollections : Except String (Option (List VarCollection))
  getLocalVarsThrows : Option String
  getVarByIdAsyncThrows : Option String
  getVarByIdSyncThrows : Option String
  createVarResult : Except String FreshVar
  setValueThrows : Option String
  setBoundThrows : Option String

/-- The mutable document state, including the module-level
`variableCollectionsCache` (code.js line 11; `none` models `null`). -/
structure Doc where
  selection : List Node
  nodes : List Node
  localVars : List Variable
  cache : Option (List VarCollection)

/- ### JS truthiness / helper functions -/

/-- JS `x || 0` for a number `x` (0 is falsy; NaN is not modelled). -/
def jsNumOrZero (x : Int) : Int := if x = 0 then 0 else x

/-- JS `!s` for a possibly-`null`/`undefined` string `s`. -/
def jsStrFalsy : Option String → Bool
  | none => true
  | some s => s == ""

/-- JS truthiness of a possibly-`null`/`undefined` string. -/
def jsTruthyStrOpt : Option String → Bool
  | none => false
  | some s => s != ""

/-- JS `a || b` on possibly-`null` strings (chains end in `none` = `null`). -/
def jsOrO (a b : Option String) : Option String :=
  if jsTruthyStrOpt a then a else b

/-- JS `s || null` for a string `s`. -/
def jsStrOrNull (s : String) : Option String :=
  if s == "" then none else some s

/-- JS `s.trim()`: strip whitespace from both ends (structural, so that
concrete witnesses evaluate). -/
def jsTrim (s : String) : String :=
  ⟨((s.data.dropWhile Char.isWhitespace).reverse.dropWhile Char.isWhitespace).reverse⟩

/-- JS `typeof v === 'number' ? v : null`. -/
def numFilter : Option JSVal → Option JSVal
  | some (JSVal.num n) => some (JSVal.num n)
  | _ => none

/-- `valuesByMode[modeId]`, `none` modelling `undefined`. -/
def lookupVal (m : List (String × JSVal)) (k : String) : Option JSVal :=
  (m.find? (fun p => p.1 == k)).map (fun p => p.2)

/-- Set a key of a `valuesByMode` map (host effect of `setValueForMode`). -/
def assocSet (m : List (String × JSVal)) (k : String) (v : JSVal) :
    List (String × JSVal) :=
  match m.find? (fun p => p.1 == k) with
  | some _ => m.map (fun p => if p.1 == k then (k, v) else p)
  | none => m ++ [(k, v)]

/- ### The plugin's helper functions -/

/-- code.js lines 6-8: `isFrameOrAutoLayout`. -/
def isFrameOrAutoLayout (node : Node) : Bool :=
  ["FRAME", "COMPONENT", "COMPONENT_SET", "INSTANCE"].contains node.nodeType

/-- code.js lines 14-39: `getAllVariableCollections` — return the cache if
set, else fetch (populating the cache), returning `[]` when the variables
API is missing or the fetch throws. -/
def getAllVariableCollections (h : Host) (d : Doc) :
    List VarCollection × Doc :=
  match d.cache with
  | some cs => (cs, d)
  | none =>
    if !h.variablesApi then ([], d)
    else
      match h.getCollections with
      | .ok csOpt =>
        let cs := csOpt.getD []
        (cs, { d with cache := some cs })
      | .error _ => ([], { d with cache := some [] })

/-- The gap-information record produced by `getGapInfo` (code.js lines
241-269).  Fields that a given return object does not set are `none`
(JS `undefined`); `itemSpacingTokenValue` is a raw JS value filtered by a
`typeof === 'number'` check, hence `Option JSVal`. -/
structure GapInfo where
  nodeId : String
  nodeName : String
  nodeType : String
  hasAutoLayout : Bool
  layoutMode : Option String
  itemSpacing : Option Int
  itemSpacingToken : Option String
  itemSpacingTokenValue : Option JSVal
  itemSpacingTokenId : Option String
  itemSpacingTokenFullPath : Option String
  itemSpacingTokenCollectionPath : Option String
  error : Option String
deriving DecidableEq, Repr

/-- The record returned at code.js lines 241-250 (no AutoLayout). -/
def noAutoLayoutInfo (n : Node) : GapInfo :=
  { nodeId := n.id, nodeName := n.name, nodeType := n.nodeType
    hasAutoLayout := false, layoutMode := none, itemSpacing := none
    itemSpacingToken := none, itemSpacingTokenValue := none
    itemSpacingTokenId := none, itemSpacingTokenFullPath := none
    itemSpacingTokenCollectionPath := none
    error := some "El elemento seleccionado no tiene AutoLayout habilitado" }

/-- The base record built at code.js lines 257-269. -/
def baseGapInfo (n : Node) : GapInfo :=
  { nodeId := n.id, nodeName := n.name, nodeType := n.nodeType
    hasAutoLayout := true, layoutMode := some n.layoutMode
    itemSpacing := some n.itemSpacing
    itemSpacingToken := none, itemSpacingTokenValue := none
    itemSpacingTokenId := none, itemSpacingTokenFullPath := none
    itemSpacingTokenCollectionPath := none, error := none }

/-- code.js lines 277-282: pick the alias object out of
`boundVariables.itemSpacing` (first array element, or the object itself
when its `type` is `'VARIABLE_ALIAS'`). -/
def extractBoundAlias : BoundGap → Option BoundRef
  | .arr rs => rs.head?
  | .single r => if r.typeTag == "VARIABLE_ALIAS" then some r else none

/-- code.js line 287: `figma.variables.getVariableByIdAsync`.  Accessing
`.getVariableByIdAsync` on a missing `figma.variables` throws; otherwise
the host may throw, else the variable is looked up by id. -/
def getVariableByIdAsyncM (h : Host) (d : Doc) (vid : String) :
    Except String (Option Variable) :=
  if !h.variablesApi then
    .error "Cannot read properties of undefined"
  else
    match h.getVarByIdAsyncThrows with
    | some m => .error m
    | none => .ok (d.localVars.find? (fun v => v.id == vid))

/-- code.js lines 306-347: resolve the collection, mode, value and paths of
a bound variable and fill the token fields of `gapInfo`. -/
def fillTokenFields (gi : GapInfo) (v : Variable)
    (collection : Option VarCollection) : GapInfo :=
  let collectionName : Option String :=
    match collection with
    | some c => jsOrO c.name none
    | none => none
  let modeId : Option String :=
    if collection.isSome && jsTruthyStrOpt (collection.bind (fun c => c.defaultModeId)) then
      collection.bind (fun c => c.defaultModeId)
    else
      jsOrO v.defaultModeId ((v.modes.head?).map (fun m => m.modeId))
  let resolvedValue : Option JSVal :=
    if jsTruthyStrOpt modeId then
      match modeId with
      | some mid => lookupVal v.valuesByMode mid
      | none => none
    else none
  let fullPath : String :=
    match collectionName with
    | some cn => cn ++ "/" ++ v.name
    | none =>
      match v.variableCollectionId with
      | some vcid => if vcid != "" then vcid ++ "/" ++ v.name else v.name
      | none => v.name
  { gi with
    itemSpacingToken := jsStrOrNull v.name
    itemSpacingTokenValue := numFilter resolvedValue
    itemSpacingTokenId := jsStrOrNull v.id
    itemSpacingTokenFullPath := jsOrO (jsStrOrNull fullPath) (jsStrOrNull v.name)
    itemSpacingTokenCollectionPath :=
      jsOrO collectionName (jsOrO v.variableCollectionId none) }

/-- code.js lines 232-373: `getGapInfo`.  Returns `none` for an invalid
node type; may populate the collections cache (hence also returns the
updated `Doc`). -/
def getGapInfo (h : Host) (d : Doc) (n : Node) : Option GapInfo × Doc :=
  if !(isFrameOrAutoLayout n) then (none, d)
  else if n.layoutMode == "NONE" then (some (noAutoLayoutInfo n), d)
  else
    let gi := baseGapInfo n
    match n.boundItemSpacing with
    | none => (some gi, d)
    | some bg =>
      match extractBoundAlias bg with
      | none => (some gi, d)
      | some r =>
        if r.typeTag == "VARIABLE_ALIAS" && r.refId != "" then
          match getVariableByIdAsyncM h d r.refId with
          | .error m =>
            (some { gi with error := some ("Error al resolver el token: " ++ m) }, d)
          | .ok none =>
            (some { gi with error := some "Variable no encontrada" }, d)
          | .ok (some v) =>
            match v.variableCollectionId with
            | some vcid =>
              if vcid != "" then
                let (cs, d1) := getAllVariableCollections h d
                let collection := cs.find? (fun c => c.id == vcid)
                (some (fillTokenFields gi v collection), d1)
              else
                (some (fillTokenFields gi v none), d)
            | none => (some (fillTokenFields gi v none), d)
        else (some gi, d)

/-- One entry of the `availableTokens` list (code.js lines 399-403);
`value` is a raw JS value filtered by `typeof === 'number'`. -/
structure TokenEntry where
  id : String
  name : String
  value : Option JSVal
deriving DecidableEq, Repr

/-- code.js lines 382-404: the per-variable mapping inside
`getAvailableTokens` — try `getValueForMode`, fall back to
`valuesByMode`, then keep only numbers. -/
def tokenEntryOf (v : Variable) : TokenEntry :=
  let value : Option JSVal :=
    match v.modes.head? with
    | none => none
    | some m =>
      match v.gvfm m.modeId with
      | .ok val => some val
      | .error _ => lookupVal v.valuesByMode m.modeId
  { id := v.id, name := v.name, value := numFilter value }

/-- JS `a.name.localeCompare(b.name)`-ascending order on token entries,
modelled by the standard string order. -/
def tokenLE (a b : TokenEntry) : Prop := a.name ≤ b.name

instance : DecidableRel tokenLE := fun a b =>
  inferInstanceAs (Decidable (a.name ≤ b.name))

instance : IsTotal TokenEntry tokenLE :=
  ⟨fun a b => le_total a.name b.name⟩

instance : IsTrans TokenEntry tokenLE :=
  ⟨fun _ _ _ hab hbc => le_trans hab hbc⟩

/-- code.js lines 376-409: `getAvailableTokens` — the local FLOAT
variables, mapped to `{id, name, value}` entries and sorted by name;
`[]` when the variables API is missing or the lookup throws. -/
def getAvailableTokens (h : Host) (d : Doc) : List TokenEntry :=
  if !h.variablesApi then []
  else
    match h.getLocalVarsThrows with
    | some _ => []
    | none =>
      List.insertionSort tokenLE
        ((d.localVars.filter (fun v => v.resolvedType == "FLOAT")).map tokenEntryOf)

/-- The record returned by `scanSelection`; fields a given return object
does not set are `none`. -/
structure ScanResult where
  success : Bool
  message : Option String
  gapInfo : Option GapInfo
  availableTokens : Option (List TokenEntry)
deriving DecidableEq, Repr

/-- A failing `scanSelection` result. -/
def scanFail (m : String) : ScanResult :=
  { success := false, message := some m, gapInfo := none, availableTokens := none }

/-- code.js lines 412-474: `scanSelection`. -/
def scanSelection (h : Host) (d : Doc) : ScanResult × Doc :=
  match d.selection with
  | [] =>
    (scanFail "Por favor, selecciona un Frame o AutoLayout para auditar su GAP (itemSpacing)", d)
  | node :: rest =>
    if rest.length > 0 then
      (scanFail "Por favor, selecciona solo un elemento a la vez", d)
    else if !(isFrameOrAutoLayout node) then
      (scanFail "El elemento seleccionado no es un Frame o AutoLayout válido", d)
    else
      match getGapInfo h d node with
      | (none, d1) =>
        (scanFail "No se pudo obtener información del elemento seleccionado", d1)
      | (some gi, d1) =>
        match gi.error with
        | some e => (scanFail e, d1)
        | none =>
          ({ success := true, message := none, gapInfo := some gi
             availableTokens := some (getAvailableTokens h d1) }, d1)

/- ### The write path: `linkGapToToken` -/

/-- The host-API operations `linkGapToToken` can attempt, recorded in a
chronological trace so that "attempted at most once" is stateable. -/
inductive HostOp where
  | getNodeById
  | getVariableByIdSync
  | getLocalVars
  | createVar
  | setValueForMode
  | setBoundVar
  | getValForMode
deriving DecidableEq, Repr

/-- The record returned by `linkGapToToken`; the success branch also
carries `tokenName` and the raw (unfiltered) `tokenValue`. -/
structure LinkResult where
  success : Bool
  message : String
  tokenName : Option String
  tokenValue : Option JSVal
deriving DecidableEq, Repr

/-- Outcome of the variable-acquisition block of `linkGapToToken`
(code.js lines 502-543): an early `return`, a thrown exception (caught by
the outer `catch`), or an acquired variable. -/
inductive VarStep where
  | fail (r : LinkResult) (d : Doc) (ops : List HostOp)
  | thrown (m : String) (d : Doc) (ops : List HostOp)
  | got (v : Variable) (d : Doc) (ops : List HostOp)

/-- `variables.find(v => v.name === tokenName)`: a `null`/`undefined`
`tokenName` matches no variable name. -/
def jsFindByName (vars : List Variable) : Option String → Option Variable
  | some tn => vars.find? (fun v => v.name == tn)
  | none => none

/-- The JS `TypeError` message raised by `variable.modes[0].modeId` when a
freshly created variable has no modes. -/
def typeErrorMsg : String := "Cannot read properties of undefined"

/-- code.js lines 514-543: find a local variable by name or create one
(name trimmed, resolved type FLOAT, first-mode value `tokenValue` when
provided, else `node.itemSpacing || 0`). -/
def findOrCreate (h : Host) (d : Doc) (node : Node) (tokenName : Option String)
    (tokenValue : Option Int) : VarStep :=
  match h.getLocalVarsThrows with
  | some m => .thrown m d [HostOp.getLocalVars]
  | none =>
    match jsFindByName d.localVars tokenName with
    | some v => .got v d [HostOp.getLocalVars]
    | none =>
      let gapValue : Int :=
        match tokenValue with
        | some v => v
        | none => jsNumOrZero node.itemSpacing
      if jsStrFalsy tokenName || jsTrim (tokenName.getD "") == "" then
        .fail { success := false, message := "El nombre del token no puede estar vacío"
                tokenName := none, tokenValue := none } d [HostOp.getLocalVars]
      else
        match h.createVarResult with
        | .error m =>
          .fail { success := false, message := "Error al crear el token: " ++ m
                  tokenName := none, tokenValue := none } d
            [HostOp.getLocalVars, HostOp.createVar]
        | .ok f =>
          let newVar : Variable :=
            { id := f.id, name := jsTrim (tokenName.getD ""), resolvedType := "FLOAT"
              variableCollectionId := none, modes := f.modes
              defaultModeId := f.defaultModeId, valuesByMode := [], gvfm := f.gvfm }
          let d1 : Doc := { d with localVars := d.localVars ++ [newVar] }
          match f.modes.head? with
          | none =>
            .fail { success := false, message := "Error al crear el token: " ++ typeErrorMsg
                    tokenName := none, tokenValue := none } d1
              [HostOp.getLocalVars, HostOp.createVar]
          | some m0 =>
            match h.setValueThrows with
            | some m =>
              .fail { success := false, message := "Error al crear el token: " ++ m
                      tokenName := none, tokenValue := none } d1
                [HostOp.getLocalVars, HostOp.createVar, HostOp.setValueForMode]
            | none =>
              let updated : Variable :=
                { newVar with valuesByMode := assocSet [] m0.modeId (JSVal.num gapValue) }
              let d2 : Doc :=
                { d1 with localVars := d1.localVars.map (fun v =>
                    if v.id == newVar.id then
                      { v with valuesByMode := assocSet v.valuesByMode m0.modeId (JSVal.num gapValue) }
                    else v) }
              .got updated d2 [HostOp.getLocalVars, HostOp.createVar, HostOp.setValueForMode]

/-- code.js lines 502-543: acquire the variable to bind — by id when a
truthy `tokenId` was given, else find-or-create by name. -/
def acquireVariable (h : Host) (d : Doc) (node : Node) (tokenName : Option String)
    (tokenId : Option String) (tokenValue : Option Int) : VarStep :=
  if jsTruthyStrOpt tokenId then
    match h.getVarByIdSyncThrows with
    | some m => .thrown m d [HostOp.getVariableByIdSync]
    | none =>
      match d.localVars.find? (fun v => some v.id == tokenId) with
      | none =>
        .fail { success := false, message := "No se pudo encontrar el token seleccionado"
                tokenName := none, tokenValue := none } d [HostOp.getVariableByIdSync]
      | some v => .got v d [HostOp.getVariableByIdSync]
  else
    findOrCreate h d node tokenName tokenValue

/-- Host effect of `node.setBoundVariable('itemSpacing', alias)`: every
occurrence of the node (by id) gets the alias as its bound variable. -/
def setNodeBound (d : Doc) (nodeId : String) (varId : String) : Doc :=
  let f := fun (n : Node) =>
    if n.id == nodeId then
      { n with boundItemSpacing := some (BoundGap.single ⟨"VARIABLE_ALIAS", varId⟩) }
    else n
  { d with nodes := d.nodes.map f, selection := d.selection.map f }

/-- code.js lines 554-564: the raw token value placed in the success
response — `getValueForMode` on the first mode with a `valuesByMode`
fallback in the `catch`. -/
def respTokenValue (v : Variable) : Option JSVal :=
  match v.modes.head? with
  | none => none
  | some m =>
    match v.gvfm m.modeId with
    | .ok val => some val
    | .error _ => lookupVal v.valuesByMode m.modeId

/-- The `getValueForMode` attempt of the success response, as trace ops. -/
def respOps (v : Variable) : List HostOp :=
  match v.modes.head? with
  | none => []
  | some _ => [HostOp.getValForMode]

/-- code.js lines 477-584: `linkGapToToken`.  Returns the result record,
the updated document and the chronological trace of host operations
attempted. -/
def linkGapToToken (h : Host) (d : Doc) (nodeId : String) (tokenName : Option String)
    (gapType : String) (tokenId : Option String) (tokenValue : Option Int) :
    LinkResult × Doc × List HostOp :=
  match d.nodes.find? (fun n => n.id == nodeId) with
  | none =>
    ({ success := false, message := "No se pudo encontrar el nodo seleccionado"
       tokenName := none, tokenValue := none }, d, [HostOp.getNodeById])
  | some node =>
    if !(isFrameOrAutoLayout node) then
      ({ success := false, message := "No se pudo encontrar el nodo seleccionado"
         tokenName := none, tokenValue := none }, d, [HostOp.getNodeById])
    else if node.layoutMode == "NONE" then
      ({ success := false, message := "El elemento no tiene AutoLayout habilitado"
         tokenName := none, tokenValue := none }, d, [HostOp.getNodeById])
    else if !h.variablesApi then
      ({ success := false, message := "La API de Variables no está disponible en tu versión de Figma"
         tokenName := none, tokenValue := none }, d, [HostOp.getNodeById])
    else
      match acquireVariable h d node tokenName tokenId tokenValue with
      | .fail r d1 ops => (r, d1, HostOp.getNodeById :: ops)
      | .thrown m d1 ops =>
        ({ success := false, message := "Error: " ++ m, tokenName := none
           tokenValue := none }, d1, HostOp.getNodeById :: ops)
      | .got v d1 ops =>
        if gapType == "itemSpacing" && node.layoutMode != "NONE" then
          match h.setBoundThrows with
          | some m =>
            ({ success := false, message := "Error: " ++ m, tokenName := none
               tokenValue := none }, d1,
             HostOp.getNodeById :: ops ++ [HostOp.setBoundVar])
          | none =>
            let d2 := setNodeBound d1 nodeId v.id
            ({ success := true
               message := "GAP vinculado correctamente al token \"" ++ v.name ++ "\""
               tokenName := some v.name, tokenValue := respTokenValue v }, d2,
             HostOp.getNodeById :: ops ++ [HostOp.setBoundVar] ++ respOps v)
        else
          ({ success := false
             message := "Solo se puede vincular el itemSpacing (GAP) de elementos con AutoLayout"
             tokenName := none, tokenValue := none }, d1, HostOp.getNodeById :: ops)

/- ### The UI message handler -/

/-- A message from the UI surface (`figma.ui.onmessage`, code.js lines
603-630); dispatch is on the `type` string. -/
structure UIMessage where
  msgType : String
  nodeId : String
  tokenName : Option String
  gapType : String
  tokenId : Option String
  tokenValue : Option Int

/-- A message posted back to the UI. -/
inductive PostedMsg where
  | scanResult (r : ScanResult)
  | linkResult (r : LinkResult)
deriving DecidableEq, Repr

/-- What one invocation of the message handler does: the messages posted
(in order), whether the plugin was closed, and the resulting document. -/
structure HandlerOutcome where
  posted : List PostedMsg
  closed : Bool
  doc : Doc

/-- code.js lines 603-630: the `figma.ui.onmessage` handler.  `'scan'`
posts one scan-result; `'link-token'` posts a link-result followed by a
refreshed scan-result; `'cancel'` closes the plugin; anything else is
ignored. -/
def onMessage (h : Host) (d : Doc) (msg : UIMessage) : HandlerOutcome :=
  if msg.msgType == "scan" then
    let (r, d1) := scanSelection h d
    { posted := [PostedMsg.scanResult r], closed := false, doc := d1 }
  else if msg.msgType == "link-token" then
    let (res, d1, _) :=
      linkGapToToken h d msg.nodeId msg.tokenName msg.gapType msg.tokenId msg.tokenValue
    let (sr, d2) := scanSelection h d1
    { posted := [PostedMsg.linkResult res, PostedMsg.scanResult sr], closed := false, doc := d2 }
  else if msg.msgType == "cancel" then
    { posted := [], closed := true, doc := d }
  else
    { posted := [], closed := false, doc := d }

/- ### Auxiliary definitions used in the statements -/

/-- The document part of a `VarStep` outcome. -/
def VarStep.docOf : VarStep → Doc
  | .fail _ d _ => d
  | .thrown _ d _ => d
  | .got _ d _ => d

/-- The trace part of a `VarStep` outcome. -/
def VarStep.opsOf : VarStep → List HostOp
  | .fail _ _ ops => ops
  | .thrown _ _ ops => ops
  | .got _ _ ops => ops

/-- The itemSpacing bindings of a node list, keyed by node id. -/
def bindingsOf (ns : List Node) : List (String × Option BoundGap) :=
  ns.map (fun n => (n.id, n.boundItemSpacing))

/-- The node's bound itemSpacing token fails to resolve: a well-formed
variable alias is present but the variables API is missing, the async
lookup throws, or no local variable has the alias id. -/
def tokenResolutionFails (h : Host) (d : Doc) (n : Node) : Prop :=
  match n.boundItemSpacing with
  | none => False
  | some bg =>
    match extractBoundAlias bg with
    | none => False
    | some r =>
      (r.typeTag = "VARIABLE_ALIAS" ∧ r.refId ≠ "") ∧
      (h.variablesApi = false ∨ h.getVarByIdAsyncThrows.isSome ∨
        d.localVars.find? (fun v => v.id == r.refId) = none)

/-- The exact failure condition of `scanSelection`: empty selection, more
than one node, an invalid node type, no AutoLayout, or a bound token that
fails to resolve. -/
def scanFailCond (h : Host) (d : Doc) : Prop :=
  match d.selection with
  | [] => True
  | [n] =>
    isFrameOrAutoLayout n = false ∨ n.layoutMode = "NONE" ∨ tokenResolutionFails h d n
  | _ :: _ :: _ => True

/- ### Concrete fixtures for witnesses and counterexamples -/

/-- A single mode used by the fixtures. -/
def mode1 : Mode := ⟨"m1"⟩

/-- A FLOAT token variable with value 8 in its single mode. -/
def varA : Variable :=
  { id := "v1", name := "spacing/a", resolvedType := "FLOAT"
    variableCollectionId := some "c1", modes := [mode1]
    defaultModeId := some "m1", valuesByMode := [("m1", JSVal.num 8)]
    gvfm := fun _ => Except.ok (JSVal.num 8) }

/-- A variable collection fixture. -/
def collA : VarCollection := ⟨"c1", some "Tokens", some "m1"⟩

/-- The fresh-variable template the fixture host hands back from
`createVariable`. -/
def freshA : FreshVar :=
  ⟨"vNew", [mode1], some "m1", fun _ => Except.error "host"⟩

/-- A benign host: variables API present, nothing throws. -/
def hostA : Host :=
  { variablesApi := true, getCollections := Except.ok (some [collA])
    getLocalVarsThrows := none, getVarByIdAsyncThrows := none
    getVarByIdSyncThrows := none, createVarResult := Except.ok freshA
    setValueThrows := none, setBoundThrows := none }

/-- A host whose `setBoundVariable` throws. -/
def hostBoundThrows : Host := { hostA with setBoundThrows := some "boom" }

/-- An AutoLayout frame with a hard-coded gap of 8. -/
def nodeA : Node := ⟨"n1", "Frame 1", "FRAME", "HORIZONTAL", 8, none⟩

/-- An AutoLayout frame whose gap is bound to a missing variable. -/
def nodeDangling : Node :=
  ⟨"n2", "Frame 2", "FRAME", "HORIZONTAL", 8,
    some (BoundGap.single ⟨"VARIABLE_ALIAS", "missing"⟩)⟩

/-- A document with one plain AutoLayout frame and one token variable. -/
def docA : Doc :=
  { selection := [nodeA], nodes := [nodeA], localVars := [varA], cache := none }

/-- `docA` with the collections cache already populated. -/
def docCached : Doc := { docA with cache := some [collA] }

/-- A document whose selected frame has a dangling token binding. -/
def docDangling : Doc :=
  { selection := [nodeDangling], nodes := [nodeDangling], localVars := [], cache := none }

/- ### Helper lemmas -/

theorem numFilter_none_or_num (o : Option JSVal) :
    numFilter o = none ∨ ∃ m : Int, numFilter o = some (JSVal.num m) := by
  match o with
  | none => exact Or.inl rfl
  | some (JSVal.num n) => exact Or.inr ⟨n, rfl⟩
  | some (JSVal.str _) => exact Or.inl rfl

theorem fillTokenFields_base (n : Node) (v : Variable) (c : Option VarCollection) :
    (fillTokenFields (baseGapInfo n) v c).hasAutoLayout = true ∧
    (fillTokenFields (baseGapInfo n) v c).itemSpacing = some n.itemSpacing ∧
    (fillTokenFields (baseGapInfo n) v c).nodeId = n.id ∧
    (fillTokenFields (baseGapInfo n) v c).nodeName = n.name ∧
    (fillTokenFields (baseGapInfo n) v c).nodeType = n.nodeType ∧
    (fillTokenFields (baseGapInfo n) v c).error = none ∧
    ((fillTokenFields (baseGapInfo n) v c).itemSpacingTokenValue = none ∨
      ∃ m : Int, (fillTokenFields (baseGapInfo n) v c).itemSpacingTokenValue
        = some (JSVal.num m)) := by
  refine ⟨rfl, rfl, rfl, rfl, rfl, rfl, ?_⟩
  exact numFilter_none_or_num _

/- ### Claim C10: the gapInfo invariant -/

/-- Every result of `getGapInfo` is one of: `none` (invalid type), the
no-AutoLayout record, the plain base record, a base record with an error,
or a base record with filled token fields — each tied to its branch
condition. -/
theorem getGapInfo_shape (h : Host) (d : Doc) (n : Node) :
    ((getGapInfo h d n).1 = none ∧ isFrameOrAutoLayout n = false) ∨
    ((getGapInfo h d n).1 = some (noAutoLayoutInfo n) ∧ n.layoutMode = "NONE") ∨
    (¬ n.layoutMode = "NONE" ∧
      ((getGapInfo h d n).1 = some (baseGapInfo n) ∨
       (∃ e, (getGapInfo h d n).1 = some { baseGapInfo n with error := some e }) ∨
       (∃ v c, (getGapInfo h d n).1 = some (fillTokenFields (baseGapInfo n) v c)))) := by
  unfold getGapInfo
  split
  · rename_i hf
    exact Or.inl ⟨rfl, by simpa using hf⟩
  · rename_i hf
    split
    · rename_i hn
      exact Or.inr (Or.inl ⟨rfl, by simpa using hn⟩)
    · rename_i hn
      refine Or.inr (Or.inr ⟨by simpa using hn, ?_⟩)
      split
      · exact Or.inl rfl
      · split
        · exact Or.inl rfl
        · split
          · split
            · exact Or.inr (Or.inl ⟨_, rfl⟩)
            · exact Or.inr (Or.inl ⟨_, rfl⟩)
            · split
              · split
                · exact Or.inr (Or.inr ⟨_, _, rfl⟩)
                · exact Or.inr (Or.inr ⟨_, _, rfl⟩)
              · exact Or.inr (Or.inr ⟨_, _, rfl⟩)
          · exact Or.inl rfl

/-- Claim C10: every gapInfo record produced by `getGapInfo` for an
accepted node has `hasAutoLayout` true exactly when the node's
`layoutMode` is not `'NONE'`; when it is true, `itemSpacing` and the node
identity fields mirror the node; and `itemSpacingTokenValue` is always a
number or null. -/
theorem getGapInfo_invariant (h : Host) (d d' : Doc) (n : Node) (gi : GapInfo)
    (hg : getGapInfo h d n = (some gi, d')) :
    (gi.hasAutoLayout = true ↔ ¬ n.layoutMode = "NONE") ∧
    (gi.hasAutoLayout = true →
      gi.itemSpacing = some n.itemSpacing ∧ gi.nodeId = n.id ∧
      gi.nodeName = n.name ∧ gi.nodeType = n.nodeType) ∧
    (gi.itemSpacingTokenValue = none ∨
      ∃ m : Int, gi.itemSpacingTokenValue = some (JSVal.num m)) := by
  have h1 : (getGapInfo h d n).1 = some gi := by rw [hg]
  rcases getGapInfo_shape h d n with ⟨he, _⟩ | ⟨he, hn⟩ | ⟨hn, he | ⟨e, he⟩ | ⟨v, c, he⟩⟩ <;>
    rw [h1] at he
  · exact absurd he (by simp)
  · obtain rfl : gi = noAutoLayoutInfo n := Option.some.inj he
    exact ⟨by simp [noAutoLayoutInfo, hn], by simp [noAutoLayoutInfo], Or.inl rfl⟩
  · obtain rfl : gi = baseGapInfo n := Option.some.inj he
    exact ⟨by simp [baseGapInfo, hn], by simp [baseGapInfo], Or.inl rfl⟩
  · obtain rfl : gi = { baseGapInfo n with error := some e } := Option.some.inj he
    exact ⟨by simp [baseGapInfo, hn], by simp [baseGapInfo], Or.inl rfl⟩
  · obtain rfl : gi = fillTokenFields (baseGapInfo n) v c := Option.some.inj he
    obtain ⟨g1, g2, g3, g4, g5, _, g7⟩ := fillTokenFields_base n v c
    exact ⟨by simp [g1, hn], fun _ => ⟨g2, g3, g4, g5⟩, g7⟩

/-- Witness for C10 at a concrete bound node. -/
theorem getGapInfo_invariant_witness :
    ((getGapInfo hostA docDangling nodeDangling).1.getD (baseGapInfo nodeA)).hasAutoLayout
      = true := by
  have h := getGapInfo_invariant hostA docDangling docDangling nodeDangling
    { baseGapInfo nodeDangling with error := some "Variable no encontrada" } rfl
  exact h.1.mpr (by decide)

/- ### Claim C8: getAvailableTokens -/

/-- Claim C8: `getAvailableTokens` returns exactly the local FLOAT
variables, as `{id, name, value}` entries with a number-or-null value,
sorted ascending by name; and the empty list when the variables API is
missing or the lookup throws. -/
theorem getAvailableTokens_spec (h : Host) (d : Doc) :
    ((h.variablesApi = false ∨ h.getLocalVarsThrows.isSome) →
      getAvailableTokens h d = []) ∧
    (h.variablesApi = true → h.getLocalVarsThrows = none →
      (getAvailableTokens h d).Perm
        ((d.localVars.filter (fun v => v.resolvedType == "FLOAT")).map tokenEntryOf) ∧
      List.Sorted tokenLE (getAvailableTokens h d) ∧
      (∀ e ∈ getAvailableTokens h d,
        (∃ v ∈ d.localVars, v.resolvedType = "FLOAT" ∧ e.id = v.id ∧ e.name = v.name) ∧
        (e.value = none ∨ ∃ m : Int, e.value = some (JSVal.num m)))) := by
  constructor
  · rintro (hapi | hthrow)
    · simp [getAvailableTokens, hapi]
    · obtain ⟨m, hm⟩ := Option.isSome_iff_exists.mp hthrow
      simp [getAvailableTokens, hm]
  · intro hapi hthrow
    have hdef : getAvailableTokens h d =
        List.insertionSort tokenLE
          ((d.localVars.filter (fun v => v.resolvedType == "FLOAT")).map tokenEntryOf) := by
      simp [getAvailableTokens, hapi, hthrow]
    refine ⟨hdef ▸ List.perm_insertionSort _ _, hdef ▸ List.sorted_insertionSort _ _, ?_⟩
    intro e he
    rw [hdef] at he
    rw [List.mem_insertionSort] at he
    obtain ⟨v, hv, rfl⟩ := List.mem_map.mp he
    obtain ⟨hvmem, hvty⟩ := List.mem_filter.mp hv
    refine ⟨⟨v, hvmem, by simpa using hvty, rfl, rfl⟩, ?_⟩
    exact numFilter_none_or_num _

/-- Witness for C8 on the fixture document. -/
theorem getAvailableTokens_spec_witness :
    getAvailableTokens hostA docA
      = [{ id := "v1", name := "spacing/a", value := some (JSVal.num 8) }] ∧
    List.Sorted tokenLE (getAvailableTokens hostA docA) := by
  refine ⟨by decide, ?_⟩
  exact ((getAvailableTokens_spec hostA docA).2 rfl rfl).2.1

/- ### Claim C9: empty token name -/

/-- Claim C9: with no truthy `tokenId`, an empty-after-trimming
`tokenName` matching no local variable, `linkGapToToken` on a valid
AutoLayout node returns the empty-name failure, leaves the document
unchanged, and attempts no creation or binding. -/
theorem linkGapToToken_empty_name (h : Host) (d : Doc) (nodeId gapType s : String)
    (tokenId : Option String) (tokenValue : Option Int) (node : Node)
    (hn : d.nodes.find? (fun n => n.id == nodeId) = some node)
    (ht : isFrameOrAutoLayout node = true)
    (hl : ¬ node.layoutMode = "NONE")
    (hapi : h.variablesApi = true)
    (hid : jsTruthyStrOpt tokenId = false)
    (hthrow : h.getLocalVarsThrows = none)
    (hs : jsTrim s = "")
    (hfind : d.localVars.find? (fun v => v.name == s) = none) :
    linkGapToToken h d nodeId (some s) gapType tokenId tokenValue =
      ({ success := false, message := "El nombre del token no puede estar vacío"
         tokenName := none, tokenValue := none }, d,
       [HostOp.getNodeById, HostOp.getLocalVars]) := by
  have hacq : acquireVariable h d node (some s) tokenId tokenValue =
      .fail { success := false, message := "El nombre del token no puede estar vacío"
              tokenName := none, tokenValue := none } d [HostOp.getLocalVars] := by
    unfold acquireVariable
    rw [hid]
    simp only [Bool.false_eq_true, if_false]
    unfold findOrCreate
    rw [hthrow]
    simp only [jsFindByName, hfind]
    have : (jsStrFalsy (some s) || jsTrim ((some s).getD "") == "") = true := by
      simp [jsStrFalsy, Option.getD, hs]
    rw [this]
    simp
  simp only [linkGapToToken, hn, ht, hl, hapi]
  rw [hacq]
  simp [hl]

/-- Witness for C9 at a concrete whitespace-only token name. -/
theorem linkGapToToken_empty_name_witness :
    linkGapToToken hostA docA "n1" (some "   ") "itemSpacing" none none =
      ({ success := false, message := "El nombre del token no puede estar vacío"
         tokenName := none, tokenValue := none }, docA,
       [HostOp.getNodeById, HostOp.getLocalVars]) := by
  exact linkGapToToken_empty_name hostA docA "n1" "itemSpacing" "   " none none nodeA
    (by decide) (by decide) (by decide) rfl rfl rfl (by decide) rfl

/- ### Claim C6: the UI message contract -/

/-- Claim C6: the message handler serves exactly `'scan'` (one scan-result),
`'link-token'` (one link-result followed by a refreshed scan-result) and
`'cancel'` (close the plugin); any other message type is ignored. -/
theorem onMessage_contract (h : Host) (d : Doc) (msg : UIMessage) :
    (msg.msgType = "scan" →
      onMessage h d msg =
        { posted := [PostedMsg.scanResult (scanSelection h d).1], closed := false
          doc := (scanSelection h d).2 }) ∧
    (msg.msgType = "link-token" →
      onMessage h d msg =
        { posted := [PostedMsg.linkResult
            (linkGapToToken h d msg.nodeId msg.tokenName msg.gapType msg.tokenId msg.tokenValue).1,
            PostedMsg.scanResult
            (scanSelection h
              (linkGapToToken h d msg.nodeId msg.tokenName msg.gapType msg.tokenId msg.tokenValue).2.1).1]
          closed := false
          doc := (scanSelection h
            (linkGapToToken h d msg.nodeId msg.tokenName msg.gapType msg.tokenId msg.tokenValue).2.1).2 }) ∧
    (msg.msgType = "cancel" →
      onMessage h d msg = { posted := [], closed := true, doc := d }) ∧
    (¬ msg.msgType = "scan" → ¬ msg.msgType = "link-token" → ¬ msg.msgType = "cancel" →
      onMessage h d msg = { posted := [], closed := false, doc := d }) := by
  refine ⟨fun h1 => ?_, fun h2 => ?_, fun h3 => ?_, fun h1 h2 h3 => ?_⟩
  · simp [onMessage, h1]
  · simp [onMessage, h2]
  · simp [onMessage, h3]
  · simp [onMessage, h1, h2, h3]

/-- A concrete `'cancel'` message. -/
def msgCancel : UIMessage := ⟨"cancel", "", none, "", none, none⟩

/-- Witness for C6: a cancel message closes the plugin. -/
theorem onMessage_contract_witness :
    onMessage hostA docA msgCancel
      = { posted := [], closed := true, doc := docA } :=
  (onMessage_contract hostA docA msgCancel).2.2.1 rfl

/- ### Claim C3 (corrected): the cache is never invalidated by the write -/

theorem findOrCreate_state (h : Host) (d : Doc) (node : Node)
    (tn : Option String) (tv : Option Int) :
    (findOrCreate h d node tn tv).docOf.cache = d.cache ∧
    (findOrCreate h d node tn tv).docOf.nodes = d.nodes ∧
    (findOrCreate h d node tn tv).docOf.selection = d.selection := by
  unfold findOrCreate
  repeat' split
  all_goals simp [VarStep.docOf]

theorem acquireVariable_state (h : Host) (d : Doc) (node : Node)
    (tn : Option String) (tid : Option String) (tv : Option Int) :
    (acquireVariable h d node tn tid tv).docOf.cache = d.cache ∧
    (acquireVariable h d node tn tid tv).docOf.nodes = d.nodes ∧
    (acquireVariable h d node tn tid tv).docOf.selection = d.selection := by
  unfold acquireVariable
  split
  · repeat' split
    all_goals simp [VarStep.docOf]
  · exact findOrCreate_state h d node tn tv

/-- Counterexample to C3: a completed (successful) `linkGapToToken` call
after which `variableCollectionsCache` is unchanged and non-null. -/
theorem linkGapToToken_cache_not_invalidated :
    (linkGapToToken hostA docCached "n1" none "itemSpacing" (some "v1") none).1.success
      = true ∧
    (linkGapToToken hostA docCached "n1" none "itemSpacing" (some "v1") none).2.1.cache
      = some [collA] ∧
    some [collA] ≠ (none : Option (List VarCollection)) := by
  refine ⟨by decide, by decide, by decide⟩

/-- Claim C3 (amended): `linkGapToToken` never touches
`variableCollectionsCache` — the cache after any call equals the cache
before (it is written only when `getAllVariableCollections` populates it
on a read). -/
theorem linkGapToToken_preserves_cache (h : Host) (d : Doc) (nodeId : String)
    (tokenName : Option String) (gapType : String) (tokenId : Option String)
    (tokenValue : Option Int) :
    (linkGapToToken h d nodeId tokenName gapType tokenId tokenValue).2.1.cache
      = d.cache := by
  unfold linkGapToToken
  split
  · rfl
  · rename_i node hfind
    split
    · rfl
    · split
      · rfl
      · split
        · rfl
        · split
          · rename_i r d1 ops heq
            have hst := (acquireVariable_state h d node tokenName tokenId tokenValue).1
            rw [heq] at hst
            exact hst
          · rename_i m d1 ops heq
            have hst := (acquireVariable_state h d node tokenName tokenId tokenValue).1
            rw [heq] at hst
            exact hst
          · rename_i v d1 ops heq
            have hst := (acquireVariable_state h d node tokenName tokenId tokenValue).1
            rw [heq] at hst
            split
            · split
              · exact hst
              · simpa [setNodeBound] using hst
            · exact hst

/- ### Claim C7: the read path is stateless apart from the cache -/

theorem gavc_state (h : Host) (d : Doc) :
    (getAllVariableCollections h d).2.nodes = d.nodes ∧
    (getAllVariableCollections h d).2.selection = d.selection ∧
    (getAllVariableCollections h d).2.localVars = d.localVars ∧
    ((getAllVariableCollections h d).2.cache = d.cache ∨ d.cache = none) := by
  unfold getAllVariableCollections
  repeat' split
  all_goals simp_all

theorem gavc_idem (h : Host) (d : Doc) :
    getAllVariableCollections h (getAllVariableCollections h d).2
      = getAllVariableCollections h d := by
  cases hc : d.cache with
  | some cs => simp [getAllVariableCollections, hc]
  | none =>
    cases hapi : h.variablesApi with
    | false => simp [getAllVariableCollections, hc, hapi]
    | true =>
      cases hcol : h.getCollections with
      | error m => simp [getAllVariableCollections, hc, hapi, hcol]
      | ok csOpt => simp [getAllVariableCollections, hc, hapi, hcol]

theorem getVarByIdAsync_congr (h : Host) {d d' : Doc}
    (hl : d'.localVars = d.localVars) (vid : String) :
    getVariableByIdAsyncM h d' vid = getVariableByIdAsyncM h d vid := by
  unfold getVariableByIdAsyncM
  rw [hl]

theorem getGapInfo_state (h : Host) (d : Doc) (n : Node) :
    (getGapInfo h d n).2.nodes = d.nodes ∧
    (getGapInfo h d n).2.selection = d.selection ∧
    (getGapInfo h d n).2.localVars = d.localVars ∧
    ((getGapInfo h d n).2.cache = d.cache ∨ d.cache = none) := by
  unfold getGapInfo
  repeat' split
  all_goals
    first
      | exact ⟨rfl, rfl, rfl, Or.inl rfl⟩
      | (rename_i cs d1 heq
         have hgs := gavc_state h d
         rw [heq] at hgs
         simpa using hgs)

theorem getGapInfo_idem (h : Host) (d : Doc) (n : Node) :
    getGapInfo h (getGapInfo h d n).2 n = getGapInfo h d n := by
  cases hf : isFrameOrAutoLayout n with
  | false =>
    have e1 : getGapInfo h d n = (none, d) := by simp [getGapInfo, hf]
    rw [e1]
    exact e1
  | true =>
    cases hm : n.layoutMode == "NONE" with
    | true =>
      have e1 : getGapInfo h d n = (some (noAutoLayoutInfo n), d) := by
        simp [getGapInfo, hf, hm]
      rw [e1]
      exact e1
    | false =>
      cases hb : n.boundItemSpacing with
      | none =>
        have e1 : getGapInfo h d n = (some (baseGapInfo n), d) := by
          simp [getGapInfo, hf, hm, hb]
        rw [e1]
        exact e1
      | some bg =>
        cases he : extractBoundAlias bg with
        | none =>
          have e1 : getGapInfo h d n = (some (baseGapInfo n), d) := by
            simp [getGapInfo, hf, hm, hb, he]
          rw [e1]
          exact e1
        | some r =>
          cases hguard : (r.typeTag == "VARIABLE_ALIAS" && r.refId != "") with
          | false =>
            have e1 : getGapInfo h d n = (some (baseGapInfo n), d) := by
              simp [getGapInfo, hf, hm, hb, he, hguard]
            rw [e1]
            exact e1
          | true =>
            cases hv : getVariableByIdAsyncM h d r.refId with
            | error m =>
              have e1 : getGapInfo h d n =
                  (some { baseGapInfo n with
                            error := some ("Error al resolver el token: " ++ m) }, d) := by
                simp [getGapInfo, hf, hm, hb, he, hguard, hv]
              rw [e1]
              exact e1
            | ok ov =>
              cases ov with
              | none =>
                have e1 : getGapInfo h d n =
                    (some { baseGapInfo n with error := some "Variable no encontrada" }, d) := by
                  simp [getGapInfo, hf, hm, hb, he, hguard, hv]
                rw [e1]
                exact e1
              | some v =>
                cases hvc : v.variableCollectionId with
                | none =>
                  have e1 : getGapInfo h d n =
                      (some (fillTokenFields (baseGapInfo n) v none), d) := by
                    simp [getGapInfo, hf, hm, hb, he, hguard, hv, hvc]
                  rw [e1]
                  exact e1
                | some vcid =>
                  cases hne : vcid != "" with
                  | false =>
                    have e1 : getGapInfo h d n =
                        (some (fillTokenFields (baseGapInfo n) v none), d) := by
                      simp [getGapInfo, hf, hm, hb, he, hguard, hv, hvc, hne]
                    rw [e1]
                    exact e1
                  | true =>
                    have e1 : getGapInfo h d n =
                        (some (fillTokenFields (baseGapInfo n) v
                            ((getAllVariableCollections h d).1.find?
                              (fun c => c.id == vcid))),
                          (getAllVariableCollections h d).2) := by
                      simp [getGapInfo, hf, hm, hb, he, hguard, hv, hvc, hne]
                    rw [e1]
                    have hl : (getAllVariableCollections h d).2.localVars = d.localVars :=
                      (gavc_state h d).2.2.1
                    have hv2 : getVariableByIdAsyncM h (getAllVariableCollections h d).2 r.refId
                        = Except.ok (some v) := by
                      rw [getVarByIdAsync_congr h hl, hv]
                    have hg2 : getAllVariableCollections h (getAllVariableCollections h d).2
                        = ((getAllVariableCollections h d).1, (getAllVariableCollections h d).2) := by
                      rw [gavc_idem]
                    simp [getGapInfo, hf, hm, hb, he, hguard, hv2, hvc, hne, hg2]

/-- Claim C7: `scanSelection` writes nothing to the document (nodes,
selection and variables are unchanged); the only state it may mutate is
populating the collections cache when it was empty; and a second call on
the resulting (unchanged) document returns the same result and state. -/
theorem scanSelection_read_only (h : Host) (d : Doc) :
    ((scanSelection h d).2.nodes = d.nodes ∧
     (scanSelection h d).2.selection = d.selection ∧
     (scanSelection h d).2.localVars = d.localVars) ∧
    ((scanSelection h d).2.cache = d.cache ∨ d.cache = none) ∧
    scanSelection h (scanSelection h d).2 = scanSelection h d := by
  cases hsel : d.selection with
  | nil =>
    have e1 : scanSelection h d =
        (scanFail "Por favor, selecciona un Frame o AutoLayout para auditar su GAP (itemSpacing)",
          d) := by
      simp [scanSelection, hsel]
    rw [e1]
    exact ⟨⟨rfl, hsel, rfl⟩, Or.inl rfl, e1⟩
  | cons node rest =>
    cases rest with
    | cons n2 r2 =>
      have e1 : scanSelection h d =
          (scanFail "Por favor, selecciona solo un elemento a la vez", d) := by
        simp [scanSelection, hsel]
      rw [e1]
      exact ⟨⟨rfl, hsel, rfl⟩, Or.inl rfl, e1⟩
    | nil =>
      cases hf : isFrameOrAutoLayout node with
      | false =>
        have e1 : scanSelection h d =
            (scanFail "El elemento seleccionado no es un Frame o AutoLayout válido", d) := by
          simp [scanSelection, hsel, hf]
        rw [e1]
        exact ⟨⟨rfl, hsel, rfl⟩, Or.inl rfl, e1⟩
      | true =>
        obtain ⟨hn, hs, hl, hcache⟩ := getGapInfo_state h d node
        have hidem := getGapInfo_idem h d node
        cases hgap : getGapInfo h d node with
        | mk giOpt d1 =>
          rw [hgap] at hn hs hl hcache hidem
          have hsel1 : d1.selection = [node] := by rw [hs, hsel]
          have hgap1 : getGapInfo h d1 node = (giOpt, d1) := hidem
          cases giOpt with
          | none =>
            have e1 : scanSelection h d =
                (scanFail "No se pudo obtener información del elemento seleccionado", d1) := by
              simp [scanSelection, hsel, hf, hgap]
            have e2 : scanSelection h d1 =
                (scanFail "No se pudo obtener información del elemento seleccionado", d1) := by
              simp [scanSelection, hsel1, hf, hgap1]
            rw [e1]
            exact ⟨⟨hn, hsel1, hl⟩, hcache, e2⟩
          | some gi =>
            cases herr : gi.error with
            | some e =>
              have e1 : scanSelection h d = (scanFail e, d1) := by
                simp [scanSelection, hsel, hf, hgap, herr]
              have e2 : scanSelection h d1 = (scanFail e, d1) := by
                simp [scanSelection, hsel1, hf, hgap1, herr]
              rw [e1]
              exact ⟨⟨hn, hsel1, hl⟩, hcache, e2⟩
            | none =>
              have e1 : scanSelection h d =
                  ({ success := true, message := none, gapInfo := some gi
                     availableTokens := some (getAvailableTokens h d1) }, d1) := by
                simp [scanSelection, hsel, hf, hgap, herr]
              have e2 : scanSelection h d1 =
                  ({ success := true, message := none, gapInfo := some gi
                     availableTokens := some (getAvailableTokens h d1) }, d1) := by
                simp [scanSelection, hsel1, hf, hgap1, herr]
              rw [e1]
              exact ⟨⟨hn, hsel1, hl⟩, hcache, e2⟩

/- ### Claim C2 (corrected): scanSelection failure characterization -/

theorem gvbia_error_imp (h : Host) (d : Doc) (vid m : String)
    (hv : getVariableByIdAsyncM h d vid = Except.error m) :
    h.variablesApi = false ∨ h.getVarByIdAsyncThrows.isSome = true := by
  unfold getVariableByIdAsyncM at hv
  by_cases hapi : h.variablesApi
  · right
    cases ht : h.getVarByIdAsyncThrows with
    | none => simp [hapi, ht] at hv
    | some m2 => simp
  · left
    simpa using hapi

theorem gvbia_ok_imp (h : Host) (d : Doc) (vid : String) (ov : Option Variable)
    (hv : getVariableByIdAsyncM h d vid = Except.ok ov) :
    h.variablesApi = true ∧ h.getVarByIdAsyncThrows = none ∧
      d.localVars.find? (fun v => v.id == vid) = ov := by
  unfold getVariableByIdAsyncM at hv
  by_cases hapi : h.variablesApi
  · cases ht : h.getVarByIdAsyncThrows with
    | none =>
      simp only [hapi, Bool.not_true, Bool.false_eq_true, if_false, ht] at hv
      exact ⟨hapi, rfl, by injection hv⟩
    | some m2 => simp [hapi, ht] at hv
  · simp [hapi] at hv

theorem getGapInfo_error_iff (h : Host) (d : Doc) (n : Node)
    (hf : isFrameOrAutoLayout n = true) :
    ∃ gi d1, getGapInfo h d n = (some gi, d1) ∧
      (gi.error.isSome = true ↔ (n.layoutMode = "NONE" ∨ tokenResolutionFails h d n)) := by
  cases hm : n.layoutMode == "NONE" with
  | true =>
    refine ⟨noAutoLayoutInfo n, d, by simp [getGapInfo, hf, hm], ?_⟩
    simp only [beq_iff_eq] at hm
    simp [noAutoLayoutInfo, hm]
  | false =>
    have hm' : ¬ n.layoutMode = "NONE" := by simpa using hm
    cases hb : n.boundItemSpacing with
    | none =>
      refine ⟨baseGapInfo n, d, by simp [getGapInfo, hf, hm, hb], ?_⟩
      simp [baseGapInfo, hm', tokenResolutionFails, hb]
    | some bg =>
      cases he : extractBoundAlias bg with
      | none =>
        refine ⟨baseGapInfo n, d, by simp [getGapInfo, hf, hm, hb, he], ?_⟩
        simp [baseGapInfo, hm', tokenResolutionFails, hb, he]
      | some r =>
        cases hguard : (r.typeTag == "VARIABLE_ALIAS" && r.refId != "") with
        | false =>
          refine ⟨baseGapInfo n, d, by simp [getGapInfo, hf, hm, hb, he, hguard], ?_⟩
          have : ¬ (r.typeTag = "VARIABLE_ALIAS" ∧ r.refId ≠ "") := by
            intro ⟨h1, h2⟩
            simp [h1, h2] at hguard
          simp [baseGapInfo, hm', tokenResolutionFails, hb, he, this]
        | true =>
          have hg' : r.typeTag = "VARIABLE_ALIAS" ∧ r.refId ≠ "" := by
            constructor
            · have := (Bool.and_eq_true _ _).mp hguard |>.1
              simpa using this
            · have := (Bool.and_eq_true _ _).mp hguard |>.2
              simpa using this
          cases hv : getVariableByIdAsyncM h d r.refId with
          | error m =>
            refine ⟨{ baseGapInfo n with
                        error := some ("Error al resolver el token: " ++ m) }, d,
                    by simp [getGapInfo, hf, hm, hb, he, hguard, hv], ?_⟩
            have hd := gvbia_error_imp h d r.refId m hv
            simp only [tokenResolutionFails, hb, he]
            constructor
            · intro _
              right
              refine ⟨hg', ?_⟩
              rcases hd with hd | hd
              · exact Or.inl hd
              · exact Or.inr (Or.inl hd)
            · intro _
              rfl
          | ok ov =>
            obtain ⟨hapi, hthrow, hfind⟩ := gvbia_ok_imp h d r.refId ov hv
            cases ov with
            | none =>
              refine ⟨{ baseGapInfo n with error := some "Variable no encontrada" }, d,
                      by simp [getGapInfo, hf, hm, hb, he, hguard, hv], ?_⟩
              simp only [tokenResolutionFails, hb, he]
              constructor
              · intro _
                exact Or.inr ⟨hg', Or.inr (Or.inr hfind)⟩
              · intro _
                rfl
            | some v =>
              have herr : ∀ c, (fillTokenFields (baseGapInfo n) v c).error = none :=
                fun c => rfl
              have hres : ∃ c, (getGapInfo h d n).1
                  = some (fillTokenFields (baseGapInfo n) v c) ∧
                  (getGapInfo h d n).2
                    = (getGapInfo h d n).2 := by
                cases hvc : v.variableCollectionId with
                | none =>
                  exact ⟨none, by simp [getGapInfo, hf, hm, hb, he, hguard, hv, hvc], rfl⟩
                | some vcid =>
                  cases hne : vcid != "" with
                  | false =>
                    exact ⟨none, by simp [getGapInfo, hf, hm, hb, he, hguard, hv, hvc, hne], rfl⟩
                  | true =>
                    exact ⟨(getAllVariableCollections h d).1.find? (fun c => c.id == vcid),
                      by simp [getGapInfo, hf, hm, hb, he, hguard, hv, hvc, hne], rfl⟩
              obtain ⟨c, hc, -⟩ := hres
              refine ⟨fillTokenFields (baseGapInfo n) v c, (getGapInfo h d n).2, ?_, ?_⟩
              · rw [← hc]
              · rw [herr c]
                simp only [tokenResolutionFails, hb, he]
                constructor
                · intro hcontra
                  simp at hcontra
                · rintro (hNone | ⟨-, (hbad | hbad | hbad)⟩)
                  · exact absurd hNone hm'
                  · rw [hapi] at hbad
                    exact absurd hbad (by simp)
                  · rw [hthrow] at hbad
                    exact absurd hbad (by simp)
                  · rw [hfind] at hbad
                    exact absurd hbad (by simp)

/-- Counterexample to C2: a selection of exactly one AutoLayout frame of a
valid type still yields `success:false` when its bound token fails to
resolve — a failure case missing from the claim's enumeration. -/
theorem scanSelection_fails_beyond_enumeration :
    docDangling.selection.length = 1 ∧
    isFrameOrAutoLayout nodeDangling = true ∧
    nodeDangling.layoutMode ≠ "NONE" ∧
    (scanSelection hostA docDangling).1.success = false ∧
    (scanSelection hostA docDangling).1.message = some "Variable no encontrada" := by
  refine ⟨rfl, rfl, by decide, by decide, by decide⟩

/-- Claim C2 (amended): `scanSelection` returns `success:false` (with a
message string) exactly when the selection is empty, has more than one
node, the node's type is invalid, the node has no AutoLayout, or the
node's bound itemSpacing token fails to resolve; in every other case it
returns `success:true` with a gapInfo record. -/
theorem scanSelection_failure_iff (h : Host) (d : Doc) :
    ((scanSelection h d).1.success = false ↔ scanFailCond h d) ∧
    ((scanSelection h d).1.success = false →
      (scanSelection h d).1.message.isSome = true) ∧
    ((scanSelection h d).1.success = true →
      (scanSelection h d).1.gapInfo.isSome = true) := by
  cases hsel : d.selection with
  | nil =>
    have e1 : scanSelection h d =
        (scanFail "Por favor, selecciona un Frame o AutoLayout para auditar su GAP (itemSpacing)",
          d) := by
      simp [scanSelection, hsel]
    rw [e1]
    refine ⟨?_, fun _ => rfl, fun hc => by simp [scanFail] at hc⟩
    simp [scanFail, scanFailCond, hsel]
  | cons node rest =>
    cases rest with
    | cons n2 r2 =>
      have e1 : scanSelection h d =
          (scanFail "Por favor, selecciona solo un elemento a la vez", d) := by
        simp [scanSelection, hsel]
      rw [e1]
      refine ⟨?_, fun _ => rfl, fun hc => by simp [scanFail] at hc⟩
      simp [scanFail, scanFailCond, hsel]
    | nil =>
      cases hf : isFrameOrAutoLayout node with
      | false =>
        have e1 : scanSelection h d =
            (scanFail "El elemento seleccionado no es un Frame o AutoLayout válido", d) := by
          simp [scanSelection, hsel, hf]
        rw [e1]
        refine ⟨?_, fun _ => rfl, fun hc => by simp [scanFail] at hc⟩
        simp [scanFail, scanFailCond, hsel, hf]
      | true =>
        obtain ⟨gi, d1, hgap, hiff⟩ := getGapInfo_error_iff h d node hf
        cases herr : gi.error with
        | some e =>
          have e1 : scanSelection h d = (scanFail e, d1) := by
            simp [scanSelection, hsel, hf, hgap, herr]
          rw [e1]
          refine ⟨?_, fun _ => rfl, fun hc => by simp [scanFail] at hc⟩
          have hcond : tokenResolutionFails h d node ∨ node.layoutMode = "NONE" := by
            have := hiff.mp (by simp [herr])
            tauto
          simp only [scanFail, scanFailCond, hsel]
          constructor
          · intro _
            rcases hcond with hc | hc
            · exact Or.inr (Or.inr hc)
            · exact Or.inr (Or.inl hc)
          · intro _
            trivial
        | none =>
          have e1 : scanSelection h d =
              ({ success := true, message := none, gapInfo := some gi
                 availableTokens := some (getAvailableTokens h d1) }, d1) := by
            simp [scanSelection, hsel, hf, hgap, herr]
          rw [e1]
          refine ⟨?_, fun hc => by simp at hc, fun _ => rfl⟩
          have hnofail : ¬ (node.layoutMode = "NONE" ∨ tokenResolutionFails h d node) := by
            intro hc
            have := hiff.mpr hc
            rw [herr] at this
            simp at this
          simp only [scanFailCond, hsel]
          constructor
          · intro hc
            simp at hc
          · rintro (hc | hc | hc)
            · rw [hf] at hc
              exact absurd hc (by simp)
            · exact absurd (Or.inl hc) hnofail
            · exact absurd (Or.inr hc) hnofail

/-- Witness for the amended C2 on a concrete succeeding scan. -/
theorem scanSelection_failure_iff_witness :
    (scanSelection hostA docA).1.gapInfo.isSome = true :=
  (scanSelection_failure_iff hostA docA).2.2 (by decide)

/- ### Shared lemmas for the write-path claims (C1, C4, C5) -/

theorem setNodeBound_localVars (d : Doc) (nodeId vid : String) :
    (setNodeBound d nodeId vid).localVars = d.localVars := rfl

theorem setNodeBound_binding (d : Doc) (nodeId vid : String) :
    ∀ n ∈ (setNodeBound d nodeId vid).nodes, n.id = nodeId →
      n.boundItemSpacing = some (BoundGap.single ⟨"VARIABLE_ALIAS", vid⟩) := by
  intro n hmem hid
  obtain ⟨n0, h0, rfl⟩ := List.mem_map.mp hmem
  by_cases hcase : n0.id == nodeId
  · simp [hcase]
  · simp only [hcase, if_false] at hid ⊢
    exact absurd (by simpa using hid) (by simpa using hcase)

/-- The bind step of `linkGapToToken`: once a variable has been acquired,
a gapType of `'itemSpacing'` with no `setBoundVariable` throw binds it. -/
theorem linkGapToToken_of_got (h : Host) (d : Doc) (nodeId : String)
    (tokenName : Option String) (gapType : String) (tokenId : Option String)
    (tokenValue : Option Int) (node : Node) (v : Variable) (d1 : Doc)
    (ops : List HostOp)
    (hn : d.nodes.find? (fun n => n.id == nodeId) = some node)
    (ht : isFrameOrAutoLayout node = true)
    (hl : ¬ node.layoutMode = "NONE")
    (hapi : h.variablesApi = true)
    (hacq : acquireVariable h d node tokenName tokenId tokenValue
      = VarStep.got v d1 ops)
    (hg : gapType = "itemSpacing")
    (hb : h.setBoundThrows = none) :
    linkGapToToken h d nodeId tokenName gapType tokenId tokenValue =
      ({ success := true
         message := "GAP vinculado correctamente al token \"" ++ v.name ++ "\""
         tokenName := some v.name, tokenValue := respTokenValue v },
       setNodeBound d1 nodeId v.id,
       HostOp.getNodeById :: ops ++ [HostOp.setBoundVar] ++ respOps v) := by
  simp [linkGapToToken, hn, ht, hl, hapi, hacq, hg, hb]

theorem acquireVariable_ops (h : Host) (d : Doc) (node : Node)
    (tn : Option String) (tid : Option String) (tv : Option Int) :
    HostOp.getVariableByIdSync ∈ (acquireVariable h d node tn tid tv).opsOf ∨
    HostOp.getLocalVars ∈ (acquireVariable h d node tn tid tv).opsOf := by
  unfold acquireVariable findOrCreate
  repeat' split
  all_goals simp [VarStep.opsOf]

theorem jsFindByName_mem {vars : List Variable} {tn : Option String} {v : Variable}
    (hh : jsFindByName vars tn = some v) : v ∈ vars := by
  cases tn with
  | none => simp [jsFindByName] at hh
  | some s => exact List.mem_of_find?_eq_some hh

theorem acquireVariable_got_mem (h : Host) (d : Doc) (node : Node)
    (tn : Option String) (tid : Option String) (tv : Option Int) :
    ∀ v d1 ops, acquireVariable h d node tn tid tv = VarStep.got v d1 ops →
      v ∈ d1.localVars := by
  unfold acquireVariable findOrCreate
  intro v d1 ops
  repeat' split
  all_goals intro hEq
  all_goals try (cases hEq)
  · rename_i hfound
    exact List.mem_of_find?_eq_some hfound
  · rename_i hfound
    exact jsFindByName_mem hfound
  all_goals
    simp only [List.mem_map]
  all_goals
    refine ⟨_, List.mem_append_right _ (List.mem_singleton.mpr rfl), ?_⟩
  all_goals simp

/- ### Claim C1: find-or-create and bind -/

theorem findOrCreate_creates (h : Host) (d : Doc) (node : Node) (s : String)
    (tokenValue : Option Int) (f : FreshVar) (m0 : Mode) (ms : List Mode)
    (hthrow : h.getLocalVarsThrows = none)
    (hfind : d.localVars.find? (fun v => v.name == s) = none)
    (hs : ¬ jsTrim s = "")
    (hcreate : h.createVarResult = Except.ok f)
    (hmodes : f.modes = m0 :: ms)
    (hsetv : h.setValueThrows = none) :
    ∃ v d2, findOrCreate h d node (some s) tokenValue
        = VarStep.got v d2
            [HostOp.getLocalVars, HostOp.createVar, HostOp.setValueForMode] ∧
      v.id = f.id ∧ v.name = jsTrim s ∧ v.resolvedType = "FLOAT" ∧
      v.valuesByMode
        = [(m0.modeId, JSVal.num (tokenValue.getD (jsNumOrZero node.itemSpacing)))] ∧
      v ∈ d2.localVars ∧ d2.nodes = d.nodes ∧ d2.selection = d.selection ∧
      d2.cache = d.cache := by
  have hsne : (s == "") = false := by
    rcases eq_or_ne s "" with rfl | hne
    · exact absurd rfl hs
    · simpa using hne
  have hcond : (jsStrFalsy (some s) || jsTrim ((some s).getD "") == "") = false := by
    simp only [jsStrFalsy, Option.getD, Bool.or_eq_false_iff]
    exact ⟨hsne, by simpa using hs⟩
  simp only [findOrCreate, hthrow, jsFindByName, hfind, hcond, Bool.false_eq_true,
    if_false, hcreate, hmodes, List.head?_cons, hsetv]
  refine ⟨_, _, rfl, rfl, rfl, rfl, ?_, ?_, rfl, rfl, rfl⟩
  · cases tokenValue <;> simp [assocSet, Option.getD]
  · simp only [List.mem_map]
    refine ⟨_, List.mem_append_right _ (List.mem_singleton.mpr rfl), ?_⟩
    simp

/-- Claim C1: with no `tokenId` and a non-empty (after trimming)
`tokenName`, `linkGapToToken` on a valid AutoLayout node either creates a
new FLOAT variable named `tokenName.trim()` whose first-mode value is the
provided `tokenValue` (number) or else the node's `itemSpacing`
(`|| 0`), and binds the node's `itemSpacing` to it by a VARIABLE_ALIAS —
or, when a local variable with that name already exists, binds that
variable without creating a new one. -/
theorem linkGapToToken_find_or_create_binds (h : Host) (d : Doc)
    (nodeId s gapType : String) (tokenId : Option String)
    (tokenValue : Option Int) (node : Node)
    (hn : d.nodes.find? (fun n => n.id == nodeId) = some node)
    (ht : isFrameOrAutoLayout node = true)
    (hl : ¬ node.layoutMode = "NONE")
    (hapi : h.variablesApi = true)
    (hid : jsTruthyStrOpt tokenId = false)
    (hthrow : h.getLocalVarsThrows = none)
    (hg : gapType = "itemSpacing")
    (hb : h.setBoundThrows = none) :
    (∀ f m0 ms, d.localVars.find? (fun v => v.name == s) = none →
      ¬ jsTrim s = "" →
      h.createVarResult = Except.ok f → f.modes = m0 :: ms →
      h.setValueThrows = none →
      (linkGapToToken h d nodeId (some s) gapType tokenId tokenValue).1.success = true ∧
      (∃ v ∈ (linkGapToToken h d nodeId (some s) gapType tokenId tokenValue).2.1.localVars,
        v.id = f.id ∧ v.name = jsTrim s ∧ v.resolvedType = "FLOAT" ∧
        v.valuesByMode
          = [(m0.modeId, JSVal.num (tokenValue.getD (jsNumOrZero node.itemSpacing)))]) ∧
      (∀ n ∈ (linkGapToToken h d nodeId (some s) gapType tokenId tokenValue).2.1.nodes,
        n.id = nodeId →
        n.boundItemSpacing = some (BoundGap.single ⟨"VARIABLE_ALIAS", f.id⟩))) ∧
    (∀ v0, d.localVars.find? (fun v => v.name == s) = some v0 →
      (linkGapToToken h d nodeId (some s) gapType tokenId tokenValue).1.success = true ∧
      (linkGapToToken h d nodeId (some s) gapType tokenId tokenValue).2.1.localVars
        = d.localVars ∧
      HostOp.createVar ∉ (linkGapToToken h d nodeId (some s) gapType tokenId tokenValue).2.2 ∧
      (∀ n ∈ (linkGapToToken h d nodeId (some s) gapType tokenId tokenValue).2.1.nodes,
        n.id = nodeId →
        n.boundItemSpacing = some (BoundGap.single ⟨"VARIABLE_ALIAS", v0.id⟩))) := by
  constructor
  · intro f m0 ms hfind hs hcreate hmodes hsetv
    obtain ⟨v, d2, hfc, hvid, hvname, hvty, hvvals, hvmem, hn2, hs2, hc2⟩ :=
      findOrCreate_creates h d node s tokenValue f m0 ms hthrow hfind hs hcreate hmodes hsetv
    have hacq : acquireVariable h d node (some s) tokenId tokenValue =
        VarStep.got v d2 [HostOp.getLocalVars, HostOp.createVar, HostOp.setValueForMode] := by
      simp only [acquireVariable, hid, Bool.false_eq_true, if_false]
      exact hfc
    have hlink := linkGapToToken_of_got h d nodeId (some s) gapType tokenId tokenValue
      node v d2 _ hn ht hl hapi hacq hg hb
    refine ⟨by simp [hlink], ⟨v, ?_, hvid, hvname, hvty, hvvals⟩, ?_⟩
    · simp only [hlink]
      exact hvmem
    · intro n hnm hni
      simp only [hlink] at hnm
      rw [← hvid]
      exact setNodeBound_binding d2 nodeId v.id n hnm hni
  · intro v0 hfound
    have hacq : acquireVariable h d node (some s) tokenId tokenValue =
        VarStep.got v0 d [HostOp.getLocalVars] := by
      simp only [acquireVariable, hid, Bool.false_eq_true, if_false, findOrCreate,
        hthrow, jsFindByName, hfound]
    have hlink := linkGapToToken_of_got h d nodeId (some s) gapType tokenId tokenValue
      node v0 d _ hn ht hl hapi hacq hg hb
    refine ⟨by simp [hlink], by simp [hlink, setNodeBound_localVars], ?_, ?_⟩
    · simp only [hlink]
      cases hmm : v0.modes with
      | nil => simp [respOps, hmm]
      | cons a b => simp [respOps, hmm]
    · intro n hnm hni
      simp only [hlink] at hnm
      exact setNodeBound_binding d nodeId v0.id n hnm hni

/-- Witness for C1: creating and binding a fresh token on the fixture. -/
theorem linkGapToToken_find_or_create_binds_witness :
    ((linkGapToToken hostA docA "n1" (some "  new/token ") "itemSpacing" none (some 12)).1.success
        = true) ∧
    ((linkGapToToken hostA docA "n1" (some "spacing/a") "itemSpacing" none none).1.success
        = true ∧
     (linkGapToToken hostA docA "n1" (some "spacing/a") "itemSpacing" none none).2.1.localVars
        = docA.localVars) := by
  have h1 := (linkGapToToken_find_or_create_binds hostA docA "n1" "  new/token "
    "itemSpacing" none (some 12) nodeA rfl rfl (by decide) rfl rfl rfl rfl rfl).1
    freshA mode1 [] rfl (by decide) rfl rfl rfl
  have h2 := (linkGapToToken_find_or_create_binds hostA docA "n1" "spacing/a"
    "itemSpacing" none none nodeA rfl rfl (by decide) rfl rfl rfl rfl rfl).2
    varA rfl
  exact ⟨h1.1, h2.1, h2.2.1⟩

/- ### Claim C4: the binding step is last and guarded -/

theorem acquireVariable_fail_success (h : Host) (d : Doc) (node : Node)
    (tn : Option String) (tid : Option String) (tv : Option Int) :
    ∀ r d1 ops, acquireVariable h d node tn tid tv = VarStep.fail r d1 ops →
      r.success = false := by
  unfold acquireVariable findOrCreate
  intro r d1 ops
  repeat' split
  all_goals intro hEq
  all_goals try (cases hEq)
  all_goals rfl

/-- Claim C4: `linkGapToToken` modifies no itemSpacing binding on any
failure path, any binding attempt is preceded by a variable acquisition
(lookup by id or the local-variables fetch), and on success the target
node is bound by VARIABLE_ALIAS to a variable present in the document. -/
theorem linkGapToToken_bind_guarded (h : Host) (d : Doc) (nodeId : String)
    (tokenName : Option String) (gapType : String) (tokenId : Option String)
    (tokenValue : Option Int) :
    ((linkGapToToken h d nodeId tokenName gapType tokenId tokenValue).1.success = false →
      bindingsOf (linkGapToToken h d nodeId tokenName gapType tokenId tokenValue).2.1.nodes
        = bindingsOf d.nodes ∧
      bindingsOf (linkGapToToken h d nodeId tokenName gapType tokenId tokenValue).2.1.selection
        = bindingsOf d.selection) ∧
    (HostOp.setBoundVar ∈ (linkGapToToken h d nodeId tokenName gapType tokenId tokenValue).2.2 →
      HostOp.getVariableByIdSync
          ∈ (linkGapToToken h d nodeId tokenName gapType tokenId tokenValue).2.2 ∨
      HostOp.getLocalVars
          ∈ (linkGapToToken h d nodeId tokenName gapType tokenId tokenValue).2.2) ∧
    ((linkGapToToken h d nodeId tokenName gapType tokenId tokenValue).1.success = true →
      ∃ v ∈ (linkGapToToken h d nodeId tokenName gapType tokenId tokenValue).2.1.localVars,
        (linkGapToToken h d nodeId tokenName gapType tokenId tokenValue).1.tokenName
          = some v.name ∧
        ∀ n ∈ (linkGapToToken h d nodeId tokenName gapType tokenId tokenValue).2.1.nodes,
          n.id = nodeId →
          n.boundItemSpacing = some (BoundGap.single ⟨"VARIABLE_ALIAS", v.id⟩)) := by
  unfold linkGapToToken
  split
  · exact ⟨fun _ => ⟨rfl, rfl⟩, fun hmem => by simp at hmem, fun hsucc => by simp at hsucc⟩
  · rename_i node hfind
    split
    · exact ⟨fun _ => ⟨rfl, rfl⟩, fun hmem => by simp at hmem, fun hsucc => by simp at hsucc⟩
    · split
      · exact ⟨fun _ => ⟨rfl, rfl⟩, fun hmem => by simp at hmem, fun hsucc => by simp at hsucc⟩
      · split
        · exact ⟨fun _ => ⟨rfl, rfl⟩, fun hmem => by simp at hmem, fun hsucc => by simp at hsucc⟩
        · split
          · rename_i r d1 ops heq
            have hst := acquireVariable_state h d node tokenName tokenId tokenValue
            rw [heq] at hst
            simp only [VarStep.docOf] at hst
            obtain ⟨hcache, hnodes, hsel⟩ := hst
            have hops := acquireVariable_ops h d node tokenName tokenId tokenValue
            rw [heq] at hops
            simp only [VarStep.opsOf] at hops
            refine ⟨fun _ => ⟨by rw [hnodes], by rw [hsel]⟩, fun _ => ?_, fun hsucc => ?_⟩
            · rcases hops with ho | ho
              · exact Or.inl (List.mem_cons_of_mem _ ho)
              · exact Or.inr (List.mem_cons_of_mem _ ho)
            · have hfs := acquireVariable_fail_success h d node tokenName tokenId
                tokenValue r d1 ops heq
              rw [hfs] at hsucc
              cases hsucc
          · rename_i m d1 ops heq
            have hst := acquireVariable_state h d node tokenName tokenId tokenValue
            rw [heq] at hst
            simp only [VarStep.docOf] at hst
            obtain ⟨hcache, hnodes, hsel⟩ := hst
            have hops := acquireVariable_ops h d node tokenName tokenId tokenValue
            rw [heq] at hops
            simp only [VarStep.opsOf] at hops
            refine ⟨fun _ => ⟨by rw [hnodes], by rw [hsel]⟩, fun _ => ?_,
              fun hsucc => by simp at hsucc⟩
            rcases hops with ho | ho
            · exact Or.inl (List.mem_cons_of_mem _ ho)
            · exact Or.inr (List.mem_cons_of_mem _ ho)
          · rename_i v d1 ops heq
            have hst := acquireVariable_state h d node tokenName tokenId tokenValue
            rw [heq] at hst
            simp only [VarStep.docOf] at hst
            obtain ⟨hcache, hnodes, hsel⟩ := hst
            have hops := acquireVariable_ops h d node tokenName tokenId tokenValue
            rw [heq] at hops
            simp only [VarStep.opsOf] at hops
            have hvmem := acquireVariable_got_mem h d node tokenName tokenId tokenValue
              v d1 ops heq
            split
            · split
              · refine ⟨fun _ => ⟨by rw [hnodes], by rw [hsel]⟩, fun _ => ?_,
                  fun hsucc => by simp at hsucc⟩
                rcases hops with ho | ho
                · exact Or.inl (List.mem_cons_of_mem _ (List.mem_append_left _ ho))
                · exact Or.inr (List.mem_cons_of_mem _ (List.mem_append_left _ ho))
              · refine ⟨fun hfalse => by simp at hfalse, fun _ => ?_, fun _ => ?_⟩
                · rcases hops with ho | ho
                  · exact Or.inl (List.mem_cons_of_mem _
                      (List.mem_append_left _ (List.mem_append_left _ ho)))
                  · exact Or.inr (List.mem_cons_of_mem _
                      (List.mem_append_left _ (List.mem_append_left _ ho)))
                · exact ⟨v, hvmem, rfl, setNodeBound_binding d1 nodeId v.id⟩
            · refine ⟨fun _ => ⟨by rw [hnodes], by rw [hsel]⟩, fun _ => ?_,
                fun hsucc => by simp at hsucc⟩
              rcases hops with ho | ho
              · exact Or.inl (List.mem_cons_of_mem _ ho)
              · exact Or.inr (List.mem_cons_of_mem _ ho)

/-- Witness for C4 on a successful concrete link. -/
theorem linkGapToToken_bind_guarded_witness :
    ∃ v ∈ (linkGapToToken hostA docA "n1" (some "spacing/a") "itemSpacing"
        none none).2.1.localVars,
      (linkGapToToken hostA docA "n1" (some "spacing/a") "itemSpacing"
        none none).1.tokenName = some v.name ∧
      ∀ n ∈ (linkGapToToken hostA docA "n1" (some "spacing/a") "itemSpacing"
          none none).2.1.nodes,
        n.id = "n1" →
        n.boundItemSpacing = some (BoundGap.single ⟨"VARIABLE_ALIAS", v.id⟩) :=
  (linkGapToToken_bind_guarded hostA docA "n1" (some "spacing/a") "itemSpacing"
    none none).2.2 (by decide)

/- ### Claim C5: exceptions caught, no retries -/

theorem acquireVariable_c5 (h : Host) (d : Doc) (node : Node)
    (tn : Option String) (tid : Option String) (tv : Option Int) :
    (acquireVariable h d node tn tid tv).opsOf.Nodup ∧
    HostOp.getNodeById ∉ (acquireVariable h d node tn tid tv).opsOf ∧
    HostOp.setBoundVar ∉ (acquireVariable h d node tn tid tv).opsOf ∧
    HostOp.getValForMode ∉ (acquireVariable h d node tn tid tv).opsOf ∧
    (∀ m, h.getLocalVarsThrows = some m →
      HostOp.getLocalVars ∈ (acquireVariable h d node tn tid tv).opsOf →
      acquireVariable h d node tn tid tv
        = VarStep.thrown m d [HostOp.getLocalVars]) ∧
    (∀ m, h.getVarByIdSyncThrows = some m →
      HostOp.getVariableByIdSync ∈ (acquireVariable h d node tn tid tv).opsOf →
      acquireVariable h d node tn tid tv
        = VarStep.thrown m d [HostOp.getVariableByIdSync]) ∧
    (∀ m, h.createVarResult = Except.error m →
      HostOp.createVar ∈ (acquireVariable h d node tn tid tv).opsOf →
      acquireVariable h d node tn tid tv
        = VarStep.fail { success := false, message := "Error al crear el token: " ++ m
                         tokenName := none, tokenValue := none } d
            [HostOp.getLocalVars, HostOp.createVar]) ∧
    (∀ m, h.setValueThrows = some m →
      HostOp.setValueForMode ∈ (acquireVariable h d node tn tid tv).opsOf →
      ∃ d1, acquireVariable h d node tn tid tv
        = VarStep.fail { success := false, message := "Error al crear el token: " ++ m
                         tokenName := none, tokenValue := none } d1
            [HostOp.getLocalVars, HostOp.createVar, HostOp.setValueForMode]) := by
  unfold acquireVariable findOrCreate
  repeat' split
  all_goals simp only [VarStep.opsOf]
  all_goals
    refine ⟨by decide, by decide, by decide, by decide,
      fun m hm hmem => ?_, fun m hm hmem => ?_, fun m hm hmem => ?_, fun m hm hmem => ?_⟩
  all_goals simp_all

theorem respOps_cases (v : Variable) :
    respOps v = [] ∨ respOps v = [HostOp.getValForMode] := by
  unfold respOps
  split
  · exact Or.inl rfl
  · exact Or.inr rfl

theorem nodup_trace1 {ops : List HostOp} (h1 : ops.Nodup)
    (h2 : HostOp.getNodeById ∉ ops) (h3 : HostOp.setBoundVar ∉ ops) :
    (HostOp.getNodeById :: ops ++ [HostOp.setBoundVar]).Nodup := by
  refine List.nodup_cons.mpr ⟨?_, ?_⟩
  · intro hc
    rcases List.mem_append.mp hc with hc | hc
    · exact h2 hc
    · simp at hc
  · refine List.Nodup.append h1 (List.nodup_singleton _) ?_
    intro x hx hx2
    rw [List.mem_singleton] at hx2
    subst hx2
    exact h3 hx

theorem nodup_trace2 {ops : List HostOp} (h1 : ops.Nodup)
    (h2 : HostOp.getNodeById ∉ ops) (h3 : HostOp.setBoundVar ∉ ops)
    (h4 : HostOp.getValForMode ∉ ops) {r : List HostOp}
    (hr : r = [] ∨ r = [HostOp.getValForMode]) :
    (HostOp.getNodeById :: ops ++ [HostOp.setBoundVar] ++ r).Nodup := by
  rcases hr with rfl | rfl
  · simpa using nodup_trace1 h1 h2 h3
  · refine List.nodup_cons.mpr ⟨?_, ?_⟩
    · intro hc
      rcases List.mem_append.mp hc with hc | hc
      · rcases List.mem_append.mp hc with hc | hc
        · exact h2 hc
        · simp at hc
      · simp at hc
    · refine List.Nodup.append (List.Nodup.append h1 (List.nodup_singleton _) ?_)
        (List.nodup_singleton _) ?_
      · intro x hx hx2
        rw [List.mem_singleton] at hx2
        subst hx2
        exact h3 hx
      · intro x hx hx2
        rw [List.mem_singleton] at hx2
        subst hx2
        rcases List.mem_append.mp hx with hx | hx
        · exact h4 hx
        · simp at hx

theorem mem_cons_resolve {op a : HostOp} {ops : List HostOp}
    (hop : ¬ op = a) (hmem : op ∈ a :: ops) : op ∈ ops := by
  rcases List.mem_cons.mp hmem with he | hm
  · exact absurd he hop
  · exact hm

theorem mem_trace1_resolve {op : HostOp} {ops : List HostOp}
    (hop1 : ¬ op = HostOp.getNodeById) (hop2 : ¬ op = HostOp.setBoundVar)
    (hmem : op ∈ HostOp.getNodeById :: ops ++ [HostOp.setBoundVar]) : op ∈ ops := by
  rcases List.mem_cons.mp hmem with he | hm
  · exact absurd he hop1
  · rcases List.mem_append.mp hm with h5 | h5
    · exact h5
    · rw [List.mem_singleton] at h5
      exact absurd h5 hop2

theorem mem_trace2_resolve {op : HostOp} {ops r : List HostOp}
    (hr : r = [] ∨ r = [HostOp.getValForMode])
    (hop1 : ¬ op = HostOp.getNodeById) (hop2 : ¬ op = HostOp.setBoundVar)
    (hop3 : ¬ op = HostOp.getValForMode)
    (hmem : op ∈ HostOp.getNodeById :: ops ++ [HostOp.setBoundVar] ++ r) : op ∈ ops := by
  rcases List.mem_cons.mp hmem with he | hm
  · exact absurd he hop1
  · rcases List.mem_append.mp hm with h5 | h5
    · rcases List.mem_append.mp h5 with h6 | h6
      · exact h6
      · rw [List.mem_singleton] at h6
        exact absurd h6 hop2
    · rcases hr with rfl | rfl
      · simp at h5
      · rw [List.mem_singleton] at h5
        exact absurd h5 hop3

/-- Claim C5: `linkGapToToken` never propagates an exception — every host
throw on an executed path is turned into a `success:false` record with the
corresponding message — and no host operation is attempted more than once
per call. -/
theorem linkGapToToken_caught_no_retry (h : Host) (d : Doc) (nodeId : String)
    (tokenName : Option String) (gapType : String) (tokenId : Option String)
    (tokenValue : Option Int) :
    (∀ op : HostOp,
      ((linkGapToToken h d nodeId tokenName gapType tokenId tokenValue).2.2).count op ≤ 1) ∧
    (∀ m, h.getLocalVarsThrows = some m →
      HostOp.getLocalVars ∈ (linkGapToToken h d nodeId tokenName gapType tokenId tokenValue).2.2 →
      (linkGapToToken h d nodeId tokenName gapType tokenId tokenValue).1
        = { success := false, message := "Error: " ++ m, tokenName := none, tokenValue := none }) ∧
    (∀ m, h.getVarByIdSyncThrows = some m →
      HostOp.getVariableByIdSync
          ∈ (linkGapToToken h d nodeId tokenName gapType tokenId tokenValue).2.2 →
      (linkGapToToken h d nodeId tokenName gapType tokenId tokenValue).1
        = { success := false, message := "Error: " ++ m, tokenName := none, tokenValue := none }) ∧
    (∀ m, h.setBoundThrows = some m →
      HostOp.setBoundVar ∈ (linkGapToToken h d nodeId tokenName gapType tokenId tokenValue).2.2 →
      (linkGapToToken h d nodeId tokenName gapType tokenId tokenValue).1
        = { success := false, message := "Error: " ++ m, tokenName := none, tokenValue := none }) ∧
    (∀ m, h.createVarResult = Except.error m →
      HostOp.createVar ∈ (linkGapToToken h d nodeId tokenName gapType tokenId tokenValue).2.2 →
      (linkGapToToken h d nodeId tokenName gapType tokenId tokenValue).1
        = { success := false, message := "Error al crear el token: " ++ m
            tokenName := none, tokenValue := none }) ∧
    (∀ m, h.setValueThrows = some m →
      HostOp.setValueForMode
          ∈ (linkGapToToken h d nodeId tokenName gapType tokenId tokenValue).2.2 →
      (linkGapToToken h d nodeId tokenName gapType tokenId tokenValue).1
        = { success := false, message := "Error al crear el token: " ++ m
            tokenName := none, tokenValue := none }) := by
  unfold linkGapToToken
  split
  · exact ⟨fun op => by cases op <;> simp, fun m hm hmem => by simp at hmem,
      fun m hm hmem => by simp at hmem, fun m hm hmem => by simp at hmem,
      fun m hm hmem => by simp at hmem, fun m hm hmem => by simp at hmem⟩
  · rename_i node hfindn
    split
    · exact ⟨fun op => by cases op <;> simp, fun m hm hmem => by simp at hmem,
        fun m hm hmem => by simp at hmem, fun m hm hmem => by simp at hmem,
        fun m hm hmem => by simp at hmem, fun m hm hmem => by simp at hmem⟩
    · split
      · exact ⟨fun op => by cases op <;> simp, fun m hm hmem => by simp at hmem,
          fun m hm hmem => by simp at hmem, fun m hm hmem => by simp at hmem,
          fun m hm hmem => by simp at hmem, fun m hm hmem => by simp at hmem⟩
      · split
        · exact ⟨fun op => by cases op <;> simp, fun m hm hmem => by simp at hmem,
            fun m hm hmem => by simp at hmem, fun m hm hmem => by simp at hmem,
            fun m hm hmem => by simp at hmem, fun m hm hmem => by simp at hmem⟩
        · split
          · rename_i r d1 ops heq
            have hc5 := acquireVariable_c5 h d node tokenName tokenId tokenValue
            rw [heq] at hc5
            simp only [VarStep.opsOf] at hc5
            obtain ⟨hnodup, hnid, hnsb, hngv, himp1, himp2, himp3, himp4⟩ := hc5
            refine ⟨?_, fun m hm hmem => ?_, fun m hm hmem => ?_, fun m hm hmem => ?_,
              fun m hm hmem => ?_, fun m hm hmem => ?_⟩
            · exact fun op => List.nodup_iff_count_le_one.mp
                (List.nodup_cons.mpr ⟨hnid, hnodup⟩) op
            · have ho := mem_cons_resolve (by decide) hmem
              exact absurd (himp1 m hm ho) (by simp)
            · have ho := mem_cons_resolve (by decide) hmem
              exact absurd (himp2 m hm ho) (by simp)
            · have ho := mem_cons_resolve (by decide) hmem
              exact absurd ho hnsb
            · have ho := mem_cons_resolve (by decide) hmem
              have hx := himp3 m hm ho
              injection hx
            · have ho := mem_cons_resolve (by decide) hmem
              obtain ⟨d1', hx⟩ := himp4 m hm ho
              injection hx
          · rename_i m0 d1 ops heq
            have hc5 := acquireVariable_c5 h d node tokenName tokenId tokenValue
            rw [heq] at hc5
            simp only [VarStep.opsOf] at hc5
            obtain ⟨hnodup, hnid, hnsb, hngv, himp1, himp2, himp3, himp4⟩ := hc5
            refine ⟨?_, fun m hm hmem => ?_, fun m hm hmem => ?_, fun m hm hmem => ?_,
              fun m hm hmem => ?_, fun m hm hmem => ?_⟩
            · exact fun op => List.nodup_iff_count_le_one.mp
                (List.nodup_cons.mpr ⟨hnid, hnodup⟩) op
            · have ho := mem_cons_resolve (by decide) hmem
              have hx := himp1 m hm ho
              injection hx with h1 h2 h3
              rw [h1]
            · have ho := mem_cons_resolve (by decide) hmem
              have hx := himp2 m hm ho
              injection hx with h1 h2 h3
              rw [h1]
            · have ho := mem_cons_resolve (by decide) hmem
              exact absurd ho hnsb
            · have ho := mem_cons_resolve (by decide) hmem
              exact absurd (himp3 m hm ho) (by simp)
            · have ho := mem_cons_resolve (by decide) hmem
              obtain ⟨d1', hx⟩ := himp4 m hm ho
              exact absurd hx (by simp)
          · rename_i v d1 ops heq
            have hc5 := acquireVariable_c5 h d node tokenName tokenId tokenValue
            rw [heq] at hc5
            simp only [VarStep.opsOf] at hc5
            obtain ⟨hnodup, hnid, hnsb, hngv, himp1, himp2, himp3, himp4⟩ := hc5
            split
            · split
              · rename_i heq2
                refine ⟨?_, fun m hm hmem => ?_, fun m hm hmem => ?_, fun m hm hmem => ?_,
                  fun m hm hmem => ?_, fun m hm hmem => ?_⟩
                · exact fun op => List.nodup_iff_count_le_one.mp
                    (nodup_trace1 hnodup hnid hnsb) op
                · have ho := mem_trace1_resolve (by decide) (by decide) hmem
                  exact absurd (himp1 m hm ho) (by simp)
                · have ho := mem_trace1_resolve (by decide) (by decide) hmem
                  exact absurd (himp2 m hm ho) (by simp)
                · rw [heq2] at hm
                  injection hm with hmm
                  rw [hmm]
                · have ho := mem_trace1_resolve (by decide) (by decide) hmem
                  exact absurd (himp3 m hm ho) (by simp)
                · have ho := mem_trace1_resolve (by decide) (by decide) hmem
                  obtain ⟨d1', hx⟩ := himp4 m hm ho
                  exact absurd hx (by simp)
              · rename_i heq2
                refine ⟨?_, fun m hm hmem => ?_, fun m hm hmem => ?_, fun m hm hmem => ?_,
                  fun m hm hmem => ?_, fun m hm hmem => ?_⟩
                · exact fun op => List.nodup_iff_count_le_one.mp
                    (nodup_trace2 hnodup hnid hnsb hngv (respOps_cases v)) op
                · have ho := mem_trace2_resolve (respOps_cases v)
                    (by decide) (by decide) (by decide) hmem
                  exact absurd (himp1 m hm ho) (by simp)
                · have ho := mem_trace2_resolve (respOps_cases v)
                    (by decide) (by decide) (by decide) hmem
                  exact absurd (himp2 m hm ho) (by simp)
                · rw [heq2] at hm
                  cases hm
                · have ho := mem_trace2_resolve (respOps_cases v)
                    (by decide) (by decide) (by decide) hmem
                  exact absurd (himp3 m hm ho) (by simp)
                · have ho := mem_trace2_resolve (respOps_cases v)
                    (by decide) (by decide) (by decide) hmem
                  obtain ⟨d1', hx⟩ := himp4 m hm ho
                  exact absurd hx (by simp)
            · refine ⟨?_, fun m hm hmem => ?_, fun m hm hmem => ?_, fun m hm hmem => ?_,
                fun m hm hmem => ?_, fun m hm hmem => ?_⟩
              · exact fun op => List.nodup_iff_count_le_one.mp
                  (List.nodup_cons.mpr ⟨hnid, hnodup⟩) op
              · have ho := mem_cons_resolve (by decide) hmem
                exact absurd (himp1 m hm ho) (by simp)
              · have ho := mem_cons_resolve (by decide) hmem
                exact absurd (himp2 m hm ho) (by simp)
              · have ho := mem_cons_resolve (by decide) hmem
                exact absurd ho hnsb
              · have ho := mem_cons_resolve (by decide) hmem
                exact absurd (himp3 m hm ho) (by simp)
              · have ho := mem_cons_resolve (by decide) hmem
                obtain ⟨d1', hx⟩ := himp4 m hm ho
                exact absurd hx (by simp)

/-- Witness for C5: a host whose `setBoundVariable` throws yields a caught
`success:false` result with the thrown message. -/
theorem linkGapToToken_caught_no_retry_witness :
    (linkGapToToken hostBoundThrows docA "n1" (some "spacing/a") "itemSpacing" none none).1
      = { success := false, message := "Error: " ++ "boom"
          tokenName := none, tokenValue := none } ∧
    ((linkGapToToken hostBoundThrows docA "n1" (some "spacing/a") "itemSpacing"
        none none).2.2).count HostOp.getLocalVars ≤ 1 := by
  have hth := linkGapToToken_caught_no_retry hostBoundThrows docA "n1" (some "spacing/a")
    "itemSpacing" none none
  exact ⟨hth.2.2.2.1 "boom" rfl (by decide), hth.1 HostOp.getLocalVars⟩

end GapPlugin
